import Mathlib

/-
Shallow embedding of the turftopic model contract and reporting engine
(turftopic/base.py, class ContextualModel), together with proofs checking
the repository specification against it.

Modelling conventions:
* matrices are lists of rows over the exact rationals; the source's
  floating-point values only ever feed order comparisons and equality in
  the claims, which the rationals model exactly;
* the composite NumPy idiom "argpartition(-xs, k) take k, then argsort the
  selected scores descending" is modelled as a full descending sort of the
  indices followed by take k; the two agree except for the order among
  equal scores, which NumPy leaves unspecified (introselect/quicksort);
* fallible Python paths (raised exceptions) are modelled with Except; the
  error string records the exception and message raised by the source;
* display formatting of a score with two decimals ("{score:.2f}") is the
  one float-specific step; grid rows carry the exact score instead, and no
  claim depends on the formatted digits.
-/

namespace Turftopic

/-- Descending order on indices of a score list, pulled back through the
scores: i comes before j when the score at i is at least the score at j. -/
def geRel (xs : List ℚ) (i j : ℕ) : Prop := xs.getD j 0 ≤ xs.getD i 0

instance (xs : List ℚ) : DecidableRel (geRel xs) :=
  fun i j => inferInstanceAs (Decidable (xs.getD j 0 ≤ xs.getD i 0))

instance (xs : List ℚ) : IsTotal ℕ (geRel xs) := ⟨fun _ _ => le_total _ _⟩

instance (xs : List ℚ) : IsTrans ℕ (geRel xs) := ⟨fun _ _ _ h1 h2 => le_trans h2 h1⟩

/-- Descending order on rational scores. -/
def descR (a b : ℚ) : Prop := b ≤ a

instance : DecidableRel descR := fun a b => inferInstanceAs (Decidable (b ≤ a))

instance : IsTotal ℚ descR := ⟨fun a b => le_total b a⟩

instance : IsTrans ℚ descR := ⟨fun _ _ _ h1 h2 => le_trans h2 h1⟩

instance : IsAntisymm ℚ descR := ⟨fun _ _ h1 h2 => le_antisymm h2 h1⟩

/-- Indices of xs sorted by descending score.  Models the source's composite
np.argpartition(-xs, k)[:k] followed by re-sorting the selected entries with
np.argsort(-selected): the net effect is the k largest entries in descending
order; ties are in unspecified order in NumPy, here resolved by index. -/
def argsortDesc (xs : List ℚ) : List ℕ :=
  List.insertionSort (geRel xs) (List.range xs.length)

/-- Python str.strip(): drop leading and trailing whitespace characters. -/
def pyStrip (cs : List Char) : List Char :=
  ((cs.dropWhile Char.isWhitespace).reverse.dropWhile Char.isWhitespace).reverse

/-- turftopic.base.remove_whitespace: " ".join(text.strip().split()).
Python str.split() with no separator splits on runs of whitespace and
discards empty fragments. -/
def remove_whitespace (text : String) : String :=
  " ".intercalate
    ((((pyStrip text.toList).splitOnP Char.isWhitespace).filter
      (fun w => w ≠ [])).map (fun w => String.mk w))

/-- The display form of one ranked document in _highest_ranking_docs
(base.py lines 146-150): normalize whitespace, then truncate to 300
characters plus an ellipsis when the normalized text is longer than 300. -/
def displayDoc (doc : String) : String :=
  let d := remove_whitespace doc
  if d.length > 300 then String.mk (d.toList.take 300) ++ "..." else d

/-- Outcome of invoking the optional transform capability. -/
inductive FitError where
  | attributeError
  | notFittedError
deriving DecidableEq

/-- A call recorded while assembling topic data, used to state in which
order prepare_topic_data consults the fitting operations. -/
inductive PrepareCall where
  | transformCall
  | fitTransformCall
deriving DecidableEq

/-- The state of a concrete topic model visible to the ContextualModel base
class: the learned topic-term matrix (components_), the optional learned
label set (classes_, absent attribute modelled as none), the vectorizer
vocabulary, and the variant's optional capabilities.  The function fields
stand for the concrete variant's transform / fit_transform, the encoder's
encode and the vectorizer's transform, all external to base.py. -/
structure ContextualModel where
  components_ : List (List ℚ)
  classes_ : Option (List Int)
  vocab : List String
  hasTransform : Bool
  fitted : Bool
  transformImpl : List String → Option (List (List ℚ)) → List (List ℚ)
  fitTransformImpl : List String → List (List ℚ) → List (List ℚ)
  encode : List String → List (List ℚ)
  vectorize : List String → List (List ℚ)

/-- Modelled from the spec: the concrete variant's optional transform
capability (turftopic/base.py only declares it; the implementations live in
the variant classes, outside src/).  Looking up the attribute on a variant
without the capability raises AttributeError; per the spec's state machine,
invoking it before any fit fails with the distinct not-fitted state error;
on a fitted model it returns the variant's document-topic matrix. -/
def ContextualModel.tryTransform (m : ContextualModel) (docs : List String)
    (emb : Option (List (List ℚ))) : Except FitError (List (List ℚ)) :=
  if m.hasTransform = false then .error .attributeError
  else if m.fitted = false then .error .notFittedError
  else .ok (m.transformImpl docs emb)

/-- The topic id list used by get_topics and get_feature_names_out:
self.classes_ when the attribute exists, else list(range(n_topics)). -/
def topicsClasses (m : ContextualModel) : List Int :=
  match m.classes_ with
  | some cs => cs
  | none => (List.range m.components_.length).map Int.ofNat

/-- Top k terms of one topic row: indices of the k highest weights in
descending weight order, each rendered as (vocab[i], row[i]). -/
def topTerms (vocab : List String) (row : List ℚ) (k : ℕ) : List (String × ℚ) :=
  ((argsortDesc row).take k).map (fun i => (vocab.getD i "", row.getD i 0))

/-- ContextualModel.get_topics.  np.argpartition(-components_, top_k)
requires top_k < vocab_size (the kth index must be in bounds), which the
guard records; on failure the source raises ValueError, modelled as none. -/
def ContextualModel.get_topics (m : ContextualModel) (top_k : ℕ) :
    Option (List (Int × List (String × ℚ))) :=
  if m.components_.all (fun row => top_k < row.length) then
    some ((topicsClasses m).zip
      (m.components_.map (fun row => topTerms m.vocab row top_k)))
  else none

/-- ContextualModel.topic_names: "{topic_id}_{top-4 terms joined by _}"
per topic, from get_topics(top_k=4). -/
def ContextualModel.topic_names (m : ContextualModel) : Option (List String) :=
  (m.get_topics 4).map (fun topics => topics.map (fun p =>
    toString p.1 ++ "_" ++ "_".intercalate (p.2.map Prod.fst)))

/-- ContextualModel.get_feature_names_out: self.classes_ when present,
else list(range(n_topics)). -/
def ContextualModel.get_feature_names_out (m : ContextualModel) : List Int :=
  topicsClasses m

/-- NumPy column extraction dtm[:, t] with NumPy index semantics: a
negative index counts from the end; an index out of [-ncols, ncols) raises
IndexError.  The matrix is rectangular in the source (an ndarray), so the
column count is read off the first row. -/
def numpyCol (dtm : List (List ℚ)) (t : Int) : Except String (List ℚ) :=
  let ncols : ℕ := (dtm.headD []).length
  let j : Int := if t < 0 then t + ncols else t
  if 0 ≤ j ∧ j < ncols then .ok (dtm.map (fun row => row.getD j.toNat 0))
  else .error "IndexError: index out of bounds"

/-- Resolution of the caller's topic_id to a column index (base.py lines
133-136): list(self.classes_).index(topic_id) when the classes_ attribute
exists (a miss raises ValueError), else topic_id is already positional. -/
def resolveTopic (classes_ : Option (List Int)) (topic_id : Int) : Except String Int :=
  match classes_ with
  | some cs =>
    match cs.findIdx? (fun c => c == topic_id) with
    | some i => .ok (Int.ofNat i)
    | none => .error "ValueError: topic_id is not in list"
  | none => .ok topic_id

/-- ContextualModel._highest_ranking_docs.  Resolution order follows the
source: obtain the document-topic matrix (given, or via transform, where a
missing transform attribute is converted to the transductive ValueError);
resolve topic_id through resolveTopic; then select
kth = min(top_k, n_documents - 1) documents by descending column score and
render each as (displayDoc, score).  n_documents = 0 would make the kth
argpartition index out of bounds, raising ValueError. -/
def ContextualModel.highest_ranking_docs (m : ContextualModel) (topic_id : Int)
    (raw_documents : List String) (document_topic_matrix : Option (List (List ℚ)))
    (top_k : ℕ) : Except String (List String × List (String × ℚ)) := do
  let dtm : List (List ℚ) ←
    match document_topic_matrix with
    | some dtm => pure dtm
    | none =>
      match m.tryTransform raw_documents none with
      | .ok dtm => pure dtm
      | .error .attributeError =>
        throw "Transductive methods cannot infer topical content in documents.\nPlease pass a document_topic_matrix."
      | .error .notFittedError => throw "NotFittedError"
  let t : Int ← resolveTopic m.classes_ topic_id
  let col ← numpyCol dtm t
  if dtm.length = 0 then
    throw "ValueError: kth out of bounds"
  else
    let kth := min top_k (dtm.length - 1)
    let sel := (argsortDesc col).take kth
    pure (["Document", "Score"],
      sel.map (fun i => (displayDoc (raw_documents.getD i ""), col.getD i 0)))

/-- The leading singleton axis of the matrix returned by transform([text])
removed by np.squeeze: exactly one document was passed, so the matrix has
exactly one row, and squeeze drops that axis leaving the row.  When that
row itself has length 1 the squeeze continues to a 0-dimensional array;
that case is detected downstream by the length-1 test at the argsort,
exactly where the source raises. -/
def squeezeRow (mat : List (List ℚ)) : List ℚ :=
  match mat with
  | [row] => row
  | rows => rows.flatten

/-- ContextualModel._topic_distribution.  With no distribution, a missing
text raises the input ValueError, and a missing transform capability
raises the transductive ValueError.  np.squeeze of the resolved
distribution is the identity on vectors of length other than one, but a
length-1 vector (or a 1x1 transform result) squeezes to a 0-dimensional
array: the source then computes get_topics(top_k=4) (whose failure raises
first) and np.argsort(-topic_dist), which raises AxisError on the 0-d
array — hence the length-1 test placed at the argsort.  Otherwise the
top_k topics by descending weight are rendered with the same derived
names as topic_names. -/
def ContextualModel.topic_distribution (m : ContextualModel)
    (text : Option String) (topic_dist : Option (List ℚ)) (top_k : ℕ) :
    Except String (List String × List (String × ℚ)) := do
  let dist : List ℚ ←
    match topic_dist with
    | some d => pure d
    | none =>
      match text with
      | none => throw "You should either pass a text or a distribution."
      | some t =>
        if m.hasTransform then
          if m.fitted then pure (squeezeRow (m.transformImpl [t] none))
          else throw "NotFittedError"
        else
          throw "Transductive methods cannot infer topical content in documents.\nPlease pass a topic distribution."
  match m.get_topics 4 with
  | none => throw "ValueError: kth out of bounds"
  | some topic_desc =>
    let names := topic_desc.map (fun p =>
      toString p.1 ++ "_" ++ "_".intercalate (p.2.map Prod.fst))
    if dist.length = 1 then
      throw "AxisError: axis -1 is out of bounds for array of dimension 0"
    else
      let highest := (argsortDesc dist).take top_k
      pure (["Topic name", "Score"],
        highest.map (fun i => (names.getD i "", dist.getD i 0)))

/-- Modelled from the spec: the TopicData snapshot (turftopic/data.py is
not under src/; the spec's section 3 lists its fields).  Every field is
optional so that the nullability of the assembled snapshot is visible;
the transform field holds the capability reference as an opaque marker. -/
structure TopicData where
  corpus : Option (List String)
  document_term_matrix : Option (List (List ℚ))
  vocab : Option (List String)
  document_topic_matrix : Option (List (List ℚ))
  document_representation : Option (List (List ℚ))
  topic_term_matrix : Option (List (List ℚ))
  transform : Option Unit
  topic_names : Option (List String)
deriving DecidableEq

/-- Assembly of the TopicData dictionary (base.py lines 402-413) given the
already-obtained embeddings and document-topic matrix.  topic_names invokes
get_topics(top_k=4); its failure (raised ValueError) propagates.  The
transform key is getattr(self, "transform", None). -/
def ContextualModel.mkTopicData (m : ContextualModel) (corpus : List String)
    (emb : List (List ℚ)) (doc_topic : List (List ℚ)) : Except String TopicData :=
  match m.topic_names with
  | none => .error "ValueError: kth out of bounds"
  | some names => .ok {
      corpus := some corpus,
      document_term_matrix := some (m.vectorize corpus),
      vocab := some m.vocab,
      document_topic_matrix := some doc_topic,
      document_representation := some emb,
      topic_term_matrix := some m.components_,
      transform := if m.hasTransform then some () else none,
      topic_names := some names }

/-- ContextualModel.prepare_topic_data.  Embeddings are resolved first
(encoder when absent); then transform is attempted and both AttributeError
and NotFittedError fall back to fit_transform, which mutates the model
state (the fitted transition; the learned matrices are variant-internal).
The call trace and the post-call model state are returned alongside the
snapshot so the fallback order and its state effect can be stated. -/
def ContextualModel.prepare_topic_data (m : ContextualModel) (corpus : List String)
    (embeddings : Option (List (List ℚ))) :
    Except String TopicData × List PrepareCall × ContextualModel :=
  let emb := match embeddings with
    | some e => e
    | none => m.encode corpus
  match m.tryTransform corpus (some emb) with
  | .ok document_topic_matrix =>
    (m.mkTopicData corpus emb document_topic_matrix, [PrepareCall.transformCall], m)
  | .error _ =>
    let m' := { m with fitted := true }
    (m'.mkTopicData corpus emb (m.fitTransformImpl corpus emb),
     [PrepareCall.transformCall, PrepareCall.fitTransformCall], m')

end Turftopic

deriving instance DecidableEq for Except

namespace Turftopic

/-- A trivial stand-in for the external encoder / vectorizer functions of
the concrete example models below; never consulted by the claims that use
these models. -/
def zeroEnc : List String → List (List ℚ) := fun _ => []

/-- The spec's scenario model: one topic over vocabulary
["sale", "price", "item"] with weights [0.9, 0.5, 0.2]. -/
def saleModel : ContextualModel where
  components_ := [[0.9, 0.5, 0.2]]
  classes_ := none
  vocab := ["sale", "price", "item"]
  hasTransform := false
  fitted := true
  transformImpl := fun _ _ => []
  fitTransformImpl := fun _ _ => []
  encode := zeroEnc
  vectorize := zeroEnc

/-- A fitted model with a two-term vocabulary. -/
def twoVocabModel : ContextualModel where
  components_ := [[1, 2]]
  classes_ := none
  vocab := ["a", "b"]
  hasTransform := false
  fitted := true
  transformImpl := fun _ _ => []
  fitTransformImpl := fun _ _ => []
  encode := zeroEnc
  vectorize := zeroEnc

/-- A fitted model whose single topic gives two terms the same weight. -/
def tieModel : ContextualModel where
  components_ := [[1, 1, 0]]
  classes_ := none
  vocab := ["a", "b", "c"]
  hasTransform := false
  fitted := true
  transformImpl := fun _ _ => []
  fitTransformImpl := fun _ _ => []
  encode := zeroEnc
  vectorize := zeroEnc

/-- A fitted transductive model used for ranking calls that pass their own
document-topic matrix. -/
def rankModel : ContextualModel where
  components_ := [[1]]
  classes_ := none
  vocab := ["w"]
  hasTransform := false
  fitted := true
  transformImpl := fun _ _ => []
  fitTransformImpl := fun _ _ => []
  encode := zeroEnc
  vectorize := zeroEnc

/-- A fitted transductive model with a five-term vocabulary, so that the
top-4 naming of topics is in bounds. -/
def distModel : ContextualModel where
  components_ := [[5, 4, 3, 2, 1]]
  classes_ := none
  vocab := ["a", "b", "c", "d", "e"]
  hasTransform := false
  fitted := true
  transformImpl := fun _ _ => []
  fitTransformImpl := fun _ _ => []
  encode := zeroEnc
  vectorize := zeroEnc

/-- A fitted transductive model with two topics over a five-term
vocabulary, so that a supplied two-entry distribution survives np.squeeze
unchanged. -/
def twoTopicModel : ContextualModel where
  components_ := [[5, 4, 3, 2, 1], [1, 2, 3, 4, 5]]
  classes_ := none
  vocab := ["a", "b", "c", "d", "e"]
  hasTransform := false
  fitted := true
  transformImpl := fun _ _ => []
  fitTransformImpl := fun _ _ => []
  encode := zeroEnc
  vectorize := zeroEnc

/-- A fitted model with the transform capability, used to exercise
prepare_topic_data on its transform path. -/
def prepModel : ContextualModel where
  components_ := [[5, 4, 3, 2, 1]]
  classes_ := none
  vocab := ["a", "b", "c", "d", "e"]
  hasTransform := true
  fitted := true
  transformImpl := fun _ _ => [[1]]
  fitTransformImpl := fun _ _ => [[1]]
  encode := fun _ => [[0]]
  vectorize := fun _ => [[1]]

/-- The snapshot prepare_topic_data assembles for prepModel on the corpus
["doc"] with precomputed embeddings [[2]]. -/
def prepTd : TopicData where
  corpus := some ["doc"]
  document_term_matrix := some [[1]]
  vocab := some ["a", "b", "c", "d", "e"]
  document_topic_matrix := some [[1]]
  document_representation := some [[2]]
  topic_term_matrix := some [[5, 4, 3, 2, 1]]
  transform := some ()
  topic_names := some ["0_a_b_c_d"]

/-- A fitted model with a learned label set containing the outlier id. -/
def labelModel : ContextualModel where
  components_ := [[1, 2, 3], [3, 2, 1]]
  classes_ := some [-1, 0]
  vocab := ["a", "b", "c"]
  hasTransform := false
  fitted := true
  transformImpl := fun _ _ => []
  fitTransformImpl := fun _ _ => []
  encode := zeroEnc
  vectorize := zeroEnc

/-- A fitted model with only three vocabulary terms, fewer than the 4
needed by topic naming. -/
def smallVocabModel : ContextualModel where
  components_ := [[3, 2, 1]]
  classes_ := none
  vocab := ["a", "b", "c"]
  hasTransform := false
  fitted := true
  transformImpl := fun _ _ => []
  fitTransformImpl := fun _ _ => []
  encode := zeroEnc
  vectorize := zeroEnc

/-- A 301-character document: one letter padded with 300 spaces.  Longer
than 300 characters, but its whitespace-normalized form is one character. -/
def wsDoc : String := String.mk ('a' :: List.replicate 300 ' ')

/-- A 301-character document with no whitespace at all. -/
def longDoc : String := String.mk (List.replicate 301 'a')

theorem argsortDesc_perm (xs : List ℚ) :
    List.Perm (argsortDesc xs) (List.range xs.length) :=
  List.perm_insertionSort _ _

theorem argsortDesc_length (xs : List ℚ) : (argsortDesc xs).length = xs.length := by
  rw [argsortDesc, List.length_insertionSort, List.length_range]

theorem argsortDesc_sorted (xs : List ℚ) : List.Sorted (geRel xs) (argsortDesc xs) :=
  List.sorted_insertionSort _ _

theorem argsortDesc_nodup (xs : List ℚ) : (argsortDesc xs).Nodup :=
  ((argsortDesc_perm xs).nodup_iff).mpr (List.nodup_range _)

theorem mem_argsortDesc {xs : List ℚ} {i : ℕ} (h : i ∈ argsortDesc xs) :
    i < xs.length :=
  List.mem_range.mp ((argsortDesc_perm xs).mem_iff.mp h)

theorem map_getD_range (xs : List ℚ) :
    (List.range xs.length).map (fun i => xs.getD i 0) = xs := by
  induction xs with
  | nil => rfl
  | cons a tl ih =>
    rw [List.length_cons, List.range_succ_eq_map, List.map_cons, List.map_map]
    refine congrArg (a :: ·) ?_
    simpa [Function.comp_def] using ih

theorem argsortDesc_map_getD (xs : List ℚ) :
    (argsortDesc xs).map (fun i => xs.getD i 0) = List.insertionSort descR xs := by
  have hp1 : List.Perm ((argsortDesc xs).map (fun i => xs.getD i 0)) xs := by
    have := ((argsortDesc_perm xs).map (fun i => xs.getD i 0))
    rwa [map_getD_range xs] at this
  have hperm : List.Perm ((argsortDesc xs).map (fun i => xs.getD i 0))
      (List.insertionSort descR xs) :=
    hp1.trans (List.perm_insertionSort descR xs).symm
  have hs1 : List.Sorted descR ((argsortDesc xs).map (fun i => xs.getD i 0)) :=
    List.Pairwise.map _ (fun _ _ h => h) (argsortDesc_sorted xs)
  exact List.eq_of_perm_of_sorted hperm hs1 (List.sorted_insertionSort descR xs)

theorem topTerms_length (vocab : List String) {row : List ℚ} {k : ℕ}
    (hk : k ≤ row.length) : (topTerms vocab row k).length = k := by
  rw [topTerms, List.length_map, List.length_take, argsortDesc_length, min_eq_left hk]

theorem topTerms_snd (vocab : List String) (row : List ℚ) (k : ℕ) :
    (topTerms vocab row k).map Prod.snd = (List.insertionSort descR row).take k := by
  rw [topTerms, List.map_map]
  have h : (Prod.snd ∘ fun i => (vocab.getD i "", row.getD i 0))
      = fun i => row.getD i 0 := rfl
  rw [h, List.map_take, argsortDesc_map_getD]

theorem topTerms_sorted (vocab : List String) (row : List ℚ) (k : ℕ) :
    List.Sorted (fun p q : String × ℚ => q.2 ≤ p.2) (topTerms vocab row k) :=
  List.Pairwise.map _ (fun _ _ h => h)
    (List.Pairwise.sublist (List.take_sublist _ _) (argsortDesc_sorted row))

theorem topTerms_fst_nodup (vocab : List String) {row : List ℚ} (k : ℕ)
    (hlen : row.length = vocab.length) (hv : vocab.Nodup) :
    ((topTerms vocab row k).map Prod.fst).Nodup := by
  rw [topTerms, List.map_map]
  have hcomp : (Prod.fst ∘ fun i => (vocab.getD i "", row.getD i 0))
      = fun i => vocab.getD i "" := rfl
  rw [hcomp]
  have hsel : ((argsortDesc row).take k).Nodup :=
    List.Nodup.sublist (List.take_sublist _ _) (argsortDesc_nodup row)
  refine List.Nodup.map_on ?_ hsel
  intro i hi j hj hij
  have hi' : i < vocab.length :=
    hlen ▸ mem_argsortDesc (List.mem_of_mem_take hi)
  have hj' : j < vocab.length :=
    hlen ▸ mem_argsortDesc (List.mem_of_mem_take hj)
  rw [List.getD_eq_getElem _ _ hi', List.getD_eq_getElem _ _ hj'] at hij
  have hfin : (⟨i, hi'⟩ : Fin vocab.length) = ⟨j, hj'⟩ :=
    (List.nodup_iff_injective_get.mp hv) (by simpa [List.get_eq_getElem] using hij)
  exact congrArg Fin.val hfin

theorem topTerms_fst_mem (vocab : List String) {row : List ℚ} {k : ℕ}
    (hlen : row.length = vocab.length) {t : String × ℚ}
    (ht : t ∈ topTerms vocab row k) : t.1 ∈ vocab := by
  obtain ⟨i, hi, rfl⟩ := List.mem_map.mp ht
  have hlt : i < vocab.length := hlen ▸ mem_argsortDesc (List.mem_of_mem_take hi)
  rw [List.getD_eq_getElem _ _ hlt]
  exact List.getElem_mem _

theorem get_topics_of_all {m : ContextualModel} {k : ℕ}
    (h : m.components_.all (fun row => k < row.length) = true) :
    m.get_topics k = some ((topicsClasses m).zip
      (m.components_.map (fun row => topTerms m.vocab row k))) := by
  rw [ContextualModel.get_topics, if_pos h]

theorem get_topics_all_of_some {m : ContextualModel} {k : ℕ}
    {topics : List (Int × List (String × ℚ))} (h : m.get_topics k = some topics) :
    m.components_.all (fun row => k < row.length) = true := by
  by_contra hc
  rw [ContextualModel.get_topics, if_neg hc] at h
  exact Option.noConfusion h

theorem numpyCol_length {dtm : List (List ℚ)} {t : Int} {col : List ℚ}
    (h : numpyCol dtm t = .ok col) : col.length = dtm.length := by
  simp only [numpyCol] at h
  split at h <;> split at h <;>
    first
      | exact Except.noConfusion h
      | (injection h with h'
         rw [← h']
         exact List.length_map _ _)

/-- C3: prepare_topic_data always attempts transform first; it falls back
to fit_transform exactly when the model is unfitted or lacks the transform
capability (the call trace is then transform first, fit_transform second),
and the model state is mutated (the fitted transition) exactly in that
fallback. -/
theorem prepare_topic_data_fallback (m : ContextualModel) (corpus : List String)
    (embeddings : Option (List (List ℚ))) :
    (m.prepare_topic_data corpus embeddings).2.1.head? = some PrepareCall.transformCall ∧
    (m.prepare_topic_data corpus embeddings).2.1 =
      (if m.hasTransform && m.fitted then [PrepareCall.transformCall]
       else [PrepareCall.transformCall, PrepareCall.fitTransformCall]) ∧
    (m.prepare_topic_data corpus embeddings).2.2 =
      (if m.hasTransform && m.fitted then m else { m with fitted := true }) := by
  cases hT : m.hasTransform <;> cases hF : m.fitted <;>
    simp [ContextualModel.prepare_topic_data, ContextualModel.tryTransform, hT, hF]

/-- C5 (amended): at least one of the raw text and the precomputed
distribution must be supplied to _topic_distribution: with neither it
fails with the input error; when both are supplied the input error is not
raised — the precomputed distribution takes precedence and the call
behaves exactly as if only the distribution had been passed. -/
theorem topic_distribution_inputs (m : ContextualModel) (t : String)
    (d : List ℚ) (top_k : ℕ) :
    m.topic_distribution none none top_k
      = .error "You should either pass a text or a distribution." ∧
    m.topic_distribution (some t) (some d) top_k
      = m.topic_distribution none (some d) top_k :=
  ⟨rfl, rfl⟩

/-- C5 counterexample: supplying both a text and a two-entry distribution
(which np.squeeze leaves unchanged) does not fail with an input error,
contrary to the claim's "exactly one must be supplied"; the call succeeds
using the distribution. -/
theorem topic_distribution_both_ok :
    twoTopicModel.topic_distribution (some "x") (some [7, 3]) 10
      = .ok (["Topic name", "Score"], [("0_a_b_c_d", 7), ("1_e_d_c_b", 3)]) := by
  decide

/-- C6: on a model without the transform capability,
_highest_ranking_docs without a supplied document-topic matrix and
_topic_distribution with a text but no distribution both fail with an
error naming the transductive case and directing the caller to pass the
precomputed matrix or distribution. -/
theorem transductive_error_messages (m : ContextualModel)
    (hm : m.hasTransform = false) (topic_id : Int) (docs : List String)
    (top_k : ℕ) (t : String) (k2 : ℕ) :
    m.highest_ranking_docs topic_id docs none top_k
      = .error "Transductive methods cannot infer topical content in documents.\nPlease pass a document_topic_matrix." ∧
    m.topic_distribution (some t) none k2
      = .error "Transductive methods cannot infer topical content in documents.\nPlease pass a topic distribution." := by
  constructor
  · simp [ContextualModel.highest_ranking_docs, ContextualModel.tryTransform, hm,
      throw, throwThe, MonadExceptOf.throw, Bind.bind, Except.bind]
  · simp [ContextualModel.topic_distribution, hm,
      throw, throwThe, MonadExceptOf.throw, Bind.bind, Except.bind]

theorem mkTopicData_fields (m : ContextualModel) (corpus : List String)
    (emb doc_topic : List (List ℚ)) (td : TopicData)
    (h : m.mkTopicData corpus emb doc_topic = .ok td) :
    td.corpus.isSome = true ∧ td.document_term_matrix.isSome = true ∧
    td.vocab.isSome = true ∧ td.document_topic_matrix.isSome = true ∧
    td.document_representation.isSome = true ∧ td.topic_term_matrix.isSome = true ∧
    td.topic_names.isSome = true ∧
    (td.transform.isSome = true ↔ m.hasTransform = true) := by
  unfold ContextualModel.mkTopicData at h
  split at h
  · exact Except.noConfusion h
  · injection h with h'
    subst h'
    refine ⟨rfl, rfl, rfl, rfl, rfl, rfl, rfl, ?_⟩
    cases hh : m.hasTransform <;> simp [hh]

/-- C4: whenever prepare_topic_data on a fitted model returns a TopicData
snapshot, every snapshot field is non-null except the transform
capability reference, which is null if and only if the model declares no
transform capability. -/
theorem prepare_topic_data_snapshot (m : ContextualModel) (corpus : List String)
    (embeddings : Option (List (List ℚ))) (td : TopicData)
    (hfit : m.fitted = true)
    (h : (m.prepare_topic_data corpus embeddings).1 = .ok td) :
    td.corpus.isSome = true ∧ td.document_term_matrix.isSome = true ∧
    td.vocab.isSome = true ∧ td.document_topic_matrix.isSome = true ∧
    td.document_representation.isSome = true ∧ td.topic_term_matrix.isSome = true ∧
    td.topic_names.isSome = true ∧
    (td.transform.isSome = true ↔ m.hasTransform = true) := by
  have key : ∃ (m2 : ContextualModel) (emb dt : List (List ℚ)),
      (m.prepare_topic_data corpus embeddings).1 = m2.mkTopicData corpus emb dt ∧
      m2.hasTransform = m.hasTransform := by
    cases embeddings with
    | some e =>
      simp only [ContextualModel.prepare_topic_data]
      cases hres : m.tryTransform corpus (some e) with
      | ok dtm => exact ⟨m, e, dtm, rfl, rfl⟩
      | error er => exact ⟨{ m with fitted := true }, e, _, rfl, rfl⟩
    | none =>
      simp only [ContextualModel.prepare_topic_data]
      cases hres : m.tryTransform corpus (some (m.encode corpus)) with
      | ok dtm => exact ⟨m, _, dtm, rfl, rfl⟩
      | error er => exact ⟨{ m with fitted := true }, _, _, rfl, rfl⟩
  obtain ⟨m2, emb, dt, hkey, hht⟩ := key
  rw [hkey] at h
  have hf := mkTopicData_fields m2 corpus emb dt td h
  rw [hht] at hf
  exact hf

/-- C4 witness: the snapshot field facts at a concrete fitted model with
the transform capability. -/
theorem prepare_topic_data_snapshot_witness :
    prepTd.corpus.isSome = true ∧ prepTd.document_term_matrix.isSome = true ∧
    prepTd.vocab.isSome = true ∧ prepTd.document_topic_matrix.isSome = true ∧
    prepTd.document_representation.isSome = true ∧
    prepTd.topic_term_matrix.isSome = true ∧
    prepTd.topic_names.isSome = true ∧
    (prepTd.transform.isSome = true ↔ prepModel.hasTransform = true) :=
  prepare_topic_data_snapshot prepModel ["doc"] (some [[2]]) prepTd rfl (by decide)

theorem topTerms_snd_sorted (vocab : List String) (row : List ℚ) (k : ℕ) :
    List.Sorted descR ((topTerms vocab row k).map Prod.snd) :=
  List.Pairwise.map _ (fun _ _ h => h) (topTerms_sorted vocab row k)

theorem topicsClasses_length {m : ContextualModel}
    (hcs : ∀ cs, m.classes_ = some cs → cs.length = m.components_.length) :
    (topicsClasses m).length = m.components_.length := by
  unfold topicsClasses
  cases hc : m.classes_ with
  | some cs => exact hcs cs hc
  | none => simp

theorem length_four_exists {α : Type _} {l : List α} (h : l.length = 4) :
    ∃ a b c d, l = [a, b, c, d] := by
  cases l with
  | nil => simp at h
  | cons a l1 =>
    cases l1 with
    | nil => simp at h
    | cons b l2 =>
      cases l2 with
      | nil => simp at h
      | cons c l3 =>
        cases l3 with
        | nil => simp at h
        | cons d l4 =>
          cases l4 with
          | nil => exact ⟨a, b, c, d, rfl⟩
          | cons e l5 => simp at h

theorem intercalate_four (a b c d : String) :
    "_".intercalate [a, b, c, d] = a ++ "_" ++ b ++ "_" ++ c ++ "_" ++ d := rfl

/-- C8: the topic ids reported by get_topics agree with
get_feature_names_out: they are the learned label set classes_ when the
attribute exists (each reported id is drawn from it), and otherwise are
exactly the dense integer range 0..n_topics-1, where n_topics is the row
count of the topic-term matrix. -/
theorem get_topics_ids (m : ContextualModel) (hfit : m.fitted = true)
    (hcs : ∀ cs, m.classes_ = some cs → cs.length = m.components_.length)
    (k : ℕ) (topics : List (Int × List (String × ℚ)))
    (hk : m.get_topics k = some topics) :
    topics.map Prod.fst = m.get_feature_names_out ∧
    (∀ cs, m.classes_ = some cs → m.get_feature_names_out = cs) ∧
    (m.classes_ = none →
      m.get_feature_names_out = (List.range m.components_.length).map Int.ofNat) ∧
    ∀ p ∈ topics, p.1 ∈ m.get_feature_names_out := by
  have hall := get_topics_all_of_some hk
  rw [get_topics_of_all hall] at hk
  injection hk with hk'
  subst hk'
  refine ⟨?_, ?_, ?_, ?_⟩
  · rw [ContextualModel.get_feature_names_out]
    apply List.map_fst_zip
    rw [topicsClasses_length hcs, List.length_map]
  · intro cs hc
    simp [ContextualModel.get_feature_names_out, topicsClasses, hc]
  · intro hc
    simp [ContextualModel.get_feature_names_out, topicsClasses, hc]
  · intro p hp
    obtain ⟨a, b⟩ := p
    exact (List.of_mem_zip hp).1

/-- C8 witness: the id facts at a fitted model with the learned label set
[-1, 0]. -/
theorem get_topics_ids_witness :
    ([((-1 : Int), [("c", (3 : ℚ)), ("b", 2)]), (0, [("a", (3 : ℚ)), ("b", 2)])].map
        Prod.fst = labelModel.get_feature_names_out) ∧
    (∀ cs, labelModel.classes_ = some cs →
      labelModel.get_feature_names_out = cs) ∧
    (labelModel.classes_ = none →
      labelModel.get_feature_names_out
        = (List.range labelModel.components_.length).map Int.ofNat) ∧
    ∀ p ∈ [((-1 : Int), [("c", (3 : ℚ)), ("b", 2)]), (0, [("a", (3 : ℚ)), ("b", 2)])],
      p.1 ∈ labelModel.get_feature_names_out :=
  get_topics_ids labelModel rfl
    (fun cs hc => by rw [← Option.some_inj.mp hc]; rfl) 2
    [((-1 : Int), [("c", (3 : ℚ)), ("b", 2)]), (0, [("a", (3 : ℚ)), ("b", 2)])]
    (by decide)

/-- C9 (amended): on a fitted model whose topic rows have more than 4
entries (so that the top-4 selection of np.argpartition is in bounds;
with 4 or fewer vocabulary terms the call raises instead) and whose label
set, when present, has one label per topic, topic_names returns exactly
n_topics names, each equal to "{topic_id}_{w1}_{w2}_{w3}_{w4}" where
w1..w4 are that topic's top-4 terms from get_topics(top_k=4), joined in
descending-weight order. -/
theorem topic_names_format (m : ContextualModel) (hfit : m.fitted = true)
    (hcs : ∀ cs, m.classes_ = some cs → cs.length = m.components_.length)
    (topics : List (Int × List (String × ℚ)))
    (ht : m.get_topics 4 = some topics) :
    m.topic_names = some (topics.map (fun p =>
      toString p.1 ++ "_" ++ "_".intercalate (p.2.map Prod.fst))) ∧
    (topics.map (fun p =>
      toString p.1 ++ "_" ++ "_".intercalate (p.2.map Prod.fst))).length
        = m.components_.length ∧
    ∀ p ∈ topics, ∃ w1 w2 w3 w4,
      p.2.map Prod.fst = [w1, w2, w3, w4] ∧
      List.Sorted descR (p.2.map Prod.snd) ∧
      toString p.1 ++ "_" ++ "_".intercalate (p.2.map Prod.fst)
        = toString p.1 ++ "_" ++ w1 ++ "_" ++ w2 ++ "_" ++ w3 ++ "_" ++ w4 := by
  have hall := get_topics_all_of_some ht
  have hlength : topics.length = m.components_.length := by
    rw [get_topics_of_all hall] at ht
    injection ht with ht'
    rw [← ht', List.length_zip, topicsClasses_length hcs, List.length_map, min_self]
  refine ⟨?_, ?_, ?_⟩
  · rw [ContextualModel.topic_names, ht, Option.map_some']
  · rw [List.length_map, hlength]
  · intro p hp
    rw [get_topics_of_all hall] at ht
    injection ht with ht'
    rw [← ht'] at hp
    obtain ⟨tid, terms⟩ := p
    have hterms : terms ∈ m.components_.map (fun row => topTerms m.vocab row 4) :=
      (List.of_mem_zip hp).2
    obtain ⟨row, hrow, hteq⟩ := List.mem_map.mp hterms
    have hrowlen : 4 < row.length := by
      have := (List.all_eq_true.mp hall) row hrow
      exact of_decide_eq_true this
    have hlen4 : (terms.map Prod.fst).length = 4 := by
      rw [List.length_map, ← hteq, topTerms_length m.vocab (le_of_lt hrowlen)]
    obtain ⟨w1, w2, w3, w4, hw⟩ := length_four_exists hlen4
    refine ⟨w1, w2, w3, w4, hw, ?_, ?_⟩
    · rw [← hteq]
      exact topTerms_snd_sorted m.vocab row 4
    · rw [hw, intercalate_four]
      simp [String.append_assoc]

/-- C9 counterexample: on a fitted model with a three-term vocabulary,
topic_names raises (the top-4 selection is out of bounds) instead of
returning one name per topic. -/
theorem topic_names_format_counterexample :
    smallVocabModel.fitted = true ∧
    smallVocabModel.components_.length = 1 ∧
    smallVocabModel.topic_names = none :=
  ⟨rfl, rfl, by decide⟩

/-- C9 witness: the naming facts at a concrete fitted model with five
vocabulary terms. -/
theorem topic_names_format_witness :
    distModel.topic_names
      = some ([((0 : Int), [("a", (5 : ℚ)), ("b", 4), ("c", 3), ("d", 2)])].map
          (fun p => toString p.1 ++ "_" ++ "_".intercalate (p.2.map Prod.fst))) ∧
    ([((0 : Int), [("a", (5 : ℚ)), ("b", 4), ("c", 3), ("d", 2)])].map
        (fun p => toString p.1 ++ "_" ++ "_".intercalate (p.2.map Prod.fst))).length
      = distModel.components_.length ∧
    ∀ p ∈ [((0 : Int), [("a", (5 : ℚ)), ("b", 4), ("c", 3), ("d", 2)])],
      ∃ w1 w2 w3 w4,
        p.2.map Prod.fst = [w1, w2, w3, w4] ∧
        List.Sorted descR (p.2.map Prod.snd) ∧
        toString p.1 ++ "_" ++ "_".intercalate (p.2.map Prod.fst)
          = toString p.1 ++ "_" ++ w1 ++ "_" ++ w2 ++ "_" ++ w3 ++ "_" ++ w4 :=
  topic_names_format distModel rfl (fun _ hc => nomatch hc)
    [((0 : Int), [("a", (5 : ℚ)), ("b", 4), ("c", 3), ("d", 2)])] (by decide)

/-- C1 (amended): on a fitted model with rectangular topic rows, a
duplicate-free vocabulary and 0 < top_k < vocab_size, get_topics returns
for each topic exactly min(top_k, vocab_size) = top_k (term, weight)
pairs, ordered non-increasingly by weight (the order among equal weights
is unspecified in the source, so strictly descending only holds for
distinct weights), with no duplicate terms and every term drawn from the
vocabulary; for top_k ≥ vocab_size the partial-selection bound is
violated and the call raises instead.  The spec's scenario holds: over
vocabulary ["sale", "price", "item"] weighted [0.9, 0.5, 0.2], top_k = 2
yields [("sale", 0.9), ("price", 0.5)]. -/
theorem get_topics_top_k (m : ContextualModel) (k : ℕ) (hfit : m.fitted = true)
    (hpos : 0 < k)
    (hrect : ∀ row ∈ m.components_, row.length = m.vocab.length)
    (hk : k < m.vocab.length) (hv : m.vocab.Nodup) :
    (∃ topics, m.get_topics k = some topics ∧
      ∀ p ∈ topics, p.2.length = min k m.vocab.length ∧
        List.Sorted descR (p.2.map Prod.snd) ∧
        (p.2.map Prod.fst).Nodup ∧
        ∀ t ∈ p.2, t.1 ∈ m.vocab) ∧
    saleModel.get_topics 2 = some [(0, [("sale", 0.9), ("price", 0.5)])] := by
  constructor
  · have hall : m.components_.all (fun row => k < row.length) = true := by
      rw [List.all_eq_true]
      intro row hr
      simpa [hrect row hr] using hk
    refine ⟨_, get_topics_of_all hall, ?_⟩
    intro p hp
    obtain ⟨tid, terms⟩ := p
    have hterms : terms ∈ m.components_.map (fun row => topTerms m.vocab row k) :=
      (List.of_mem_zip hp).2
    obtain ⟨row, hrow, hteq⟩ := List.mem_map.mp hterms
    have hrl : row.length = m.vocab.length := hrect row hrow
    have hkle : k ≤ row.length := by rw [hrl]; exact hk.le
    refine ⟨?_, ?_, ?_, ?_⟩
    · rw [← hteq, topTerms_length m.vocab hkle]
      exact (min_eq_left hk.le).symm
    · rw [← hteq]
      exact topTerms_snd_sorted m.vocab row k
    · rw [← hteq]
      exact topTerms_fst_nodup m.vocab k hrl hv
    · intro t ht
      rw [← hteq] at ht
      exact topTerms_fst_mem m.vocab hrl ht
  · have hall : saleModel.components_.all (fun row => 2 < row.length) = true := by
      decide
    have hcls : topicsClasses saleModel = [0] := by decide
    have hsort : argsortDesc [(0.9 : ℚ), 0.5, 0.2] = [0, 1, 2] := by
      norm_num [argsortDesc, List.insertionSort, List.orderedInsert, geRel]
    rw [get_topics_of_all hall, hcls]
    show some ([(0 : Int)].zip ([[(0.9 : ℚ), 0.5, 0.2]].map
      (fun row => topTerms ["sale", "price", "item"] row 2))) = _
    simp [topTerms, hsort]

/-- C1 counterexample: (i) at top_k = 2 = vocab_size the claim promises
min(2, 2) = 2 pairs, but the partial-selection bound is out of range and
get_topics raises; (ii) a topic with two equally weighted terms is
returned in non-strict order, so the pairs are not strictly descending by
weight. -/
theorem get_topics_top_k_counterexample :
    twoVocabModel.get_topics 2 = none ∧
    tieModel.get_topics 2 = some [(0, [("a", 1), ("b", 1)])] ∧
    ¬ List.Pairwise (fun x y : String × ℚ => y.2 < x.2) [("a", (1 : ℚ)), ("b", 1)] :=
  ⟨by decide, by decide, by norm_num [List.pairwise_cons]⟩

/-- C1 witness: the top-k facts at the spec's scenario model with
top_k = 2. -/
theorem get_topics_top_k_witness :
    ((∃ topics, saleModel.get_topics 2 = some topics ∧
      ∀ p ∈ topics, p.2.length = min 2 saleModel.vocab.length ∧
        List.Sorted descR (p.2.map Prod.snd) ∧
        (p.2.map Prod.fst).Nodup ∧
        ∀ t ∈ p.2, t.1 ∈ saleModel.vocab) ∧
    saleModel.get_topics 2 = some [(0, [("sale", 0.9), ("price", 0.5)])]) :=
  get_topics_top_k saleModel 2 rfl (by decide) (by decide) (by decide) (by decide)

/-- C2: on a supplied document-topic matrix with at least one row and a
resolvable topic column, _highest_ranking_docs uses
min(top_k, n_documents - 1) as the effective selection size: it returns
that many document rows, whose scores are exactly the highest
min(top_k, n_documents - 1) entries of the resolved column, listed in
non-increasing order. -/
theorem highest_ranking_docs_spec (m : ContextualModel) (topic_id t : Int)
    (docs : List String) (dtm : List (List ℚ)) (col : List ℚ) (top_k : ℕ)
    (hres : resolveTopic m.classes_ topic_id = .ok t)
    (hcol : numpyCol dtm t = .ok col)
    (hn : 0 < dtm.length) :
    ∃ rows, m.highest_ranking_docs topic_id docs (some dtm) top_k
        = .ok (["Document", "Score"], rows) ∧
      rows.length = min top_k (dtm.length - 1) ∧
      rows.map Prod.snd
        = (List.insertionSort descR col).take (min top_k (dtm.length - 1)) ∧
      List.Sorted descR (rows.map Prod.snd) := by
  have hne : ¬ dtm.length = 0 := Nat.pos_iff_ne_zero.mp hn
  refine ⟨((argsortDesc col).take (min top_k (dtm.length - 1))).map
      (fun i => (displayDoc (docs.getD i ""), col.getD i 0)), ?_, ?_, ?_, ?_⟩
  · simp [ContextualModel.highest_ranking_docs, hres, hcol, hne,
      Bind.bind, Except.bind, pure, Except.pure]
  · rw [List.length_map, List.length_take, argsortDesc_length, numpyCol_length hcol]
    exact min_eq_left (le_trans (min_le_right _ _) (Nat.sub_le _ _))
  · rw [List.map_map]
    have hcomp : (Prod.snd ∘ fun i => (displayDoc (docs.getD i ""), col.getD i 0))
        = fun i => col.getD i 0 := rfl
    rw [hcomp, List.map_take, argsortDesc_map_getD]
  · rw [List.map_map]
    have hcomp : (Prod.snd ∘ fun i => (displayDoc (docs.getD i ""), col.getD i 0))
        = fun i => col.getD i 0 := rfl
    rw [hcomp, List.map_take, argsortDesc_map_getD]
    exact List.Pairwise.sublist (List.take_sublist _ _)
      (List.sorted_insertionSort descR col)

/-- C2 witness: the ranking facts at a concrete two-document matrix. -/
theorem highest_ranking_docs_spec_witness :
    ∃ rows, rankModel.highest_ranking_docs 0 ["x", "y"] (some [[2], [1]]) 5
        = .ok (["Document", "Score"], rows) ∧
      rows.length = min 5 (([[2], [1]] : List (List ℚ)).length - 1) ∧
      rows.map Prod.snd
        = (List.insertionSort descR [2, 1]).take
            (min 5 (([[2], [1]] : List (List ℚ)).length - 1)) ∧
      List.Sorted descR (rows.map Prod.snd) :=
  highest_ranking_docs_spec rankModel 0 0 ["x", "y"] [[2], [1]] [2, 1] 5
    (by decide) (by decide) (by decide)

/-- C10: when the supplied document-topic matrix has exactly one row (a
single-document corpus) and top_k ≥ 1, the effective selection size
min(top_k, n_documents - 1) is 0, so _highest_ranking_docs returns the
header row ["Document", "Score"] and zero data rows. -/
theorem highest_ranking_docs_single (m : ContextualModel) (topic_id t : Int)
    (docs : List String) (dtm : List (List ℚ)) (col : List ℚ) (top_k : ℕ)
    (h1 : dtm.length = 1)
    (hres : resolveTopic m.classes_ topic_id = .ok t)
    (hcol : numpyCol dtm t = .ok col)
    (hk : 1 ≤ top_k) :
    m.highest_ranking_docs topic_id docs (some dtm) top_k
      = .ok (["Document", "Score"], []) := by
  have hne : ¬ dtm.length = 0 := by omega
  simp [ContextualModel.highest_ranking_docs, hres, hcol, hne, h1,
    Bind.bind, Except.bind, pure, Except.pure]

/-- C10 witness: the header-only grid at a concrete one-row matrix. -/
theorem highest_ranking_docs_single_witness :
    rankModel.highest_ranking_docs 0 ["only"] (some [[3]]) 5
      = .ok (["Document", "Score"], []) :=
  highest_ranking_docs_single rankModel 0 0 ["only"] [[3]] [3] 5
    (by decide) (by decide) (by decide) (by decide)

/-- C7 (amended): each document ranked by _highest_ranking_docs is
displayed whitespace-normalized (runs of whitespace collapsed to single
spaces, ends trimmed); when the NORMALIZED text — not the raw source
document — is longer than 300 characters it is truncated to exactly 300
characters plus the ellipsis marker (303 total), and otherwise the
normalized text is shown in full. -/
theorem display_truncation (doc : String) :
    ((remove_whitespace doc).length > 300 →
      displayDoc doc
        = String.mk ((remove_whitespace doc).toList.take 300) ++ "..." ∧
      (displayDoc doc).length = 303) ∧
    ((remove_whitespace doc).length ≤ 300 →
      displayDoc doc = remove_whitespace doc) := by
  constructor
  · intro h
    have heq : displayDoc doc
        = String.mk ((remove_whitespace doc).toList.take 300) ++ "..." := by
      simp only [displayDoc]
      rw [if_pos h]
    refine ⟨heq, ?_⟩
    rw [heq, String.length_append]
    have h300 : ((remove_whitespace doc).toList.take 300).length = 300 := by
      rw [List.length_take]
      exact min_eq_left (le_of_lt h)
    have hmk : (String.mk ((remove_whitespace doc).toList.take 300)).length = 300 := h300
    rw [hmk]
    decide
  · intro h
    simp only [displayDoc]
    rw [if_neg (by omega)]

set_option maxRecDepth 8000 in
/-- C7 counterexample: a ranked source document 301 characters long
(> 300) whose whitespace-normalized form is one character is displayed in
full as that single character, not truncated to 303 characters. -/
theorem display_truncation_counterexample :
    wsDoc.length = 301 ∧
    rankModel.highest_ranking_docs 0 [wsDoc, "b"] (some [[1], [0]]) 1
      = .ok (["Document", "Score"], [("a", 1)]) ∧
    ("a" : String).length ≠ 303 :=
  ⟨by decide, by decide, by decide⟩

set_option maxRecDepth 8000 in
/-- C7 witness: the truncation facts at a 301-character document with no
whitespace. -/
theorem display_truncation_witness :
    (remove_whitespace longDoc).length > 300 ∧
    (displayDoc longDoc).length = 303 :=
  ⟨by decide, ((display_truncation longDoc).1 (by decide)).2⟩

/-- C6 witness: the transductive errors at a concrete model and inputs. -/
theorem transductive_error_messages_witness :
    distModel.highest_ranking_docs 0 ["d"] none 5
      = .error "Transductive methods cannot infer topical content in documents.\nPlease pass a document_topic_matrix." ∧
    distModel.topic_distribution (some "d") none 10
      = .error "Transductive methods cannot infer topical content in documents.\nPlease pass a topic distribution." :=
  transductive_error_messages distModel rfl 0 ["d"] 5 "d" 10

end Turftopic
